import Mathlib

/-!
Verification of the react-native-native-worker task engine.

The engine (Android module NativeWorkerModule.kt, iOS module in Swift) keeps
a FIFO pending queue of WorkerTask records, a registry (activeTasks) mapping
task id to task record, a processing flag, and a worker loop that every tick
polls the queue head, runs processMessage on it, and emits an outcome event.

The shallow embedding below models the engine state explicitly.  The worker
tick processNextTask is split into two steps around the long-running
processMessage call: claimStep (poll + cancelled check + isProcessing set)
and finishStep (registry removal, delivery decision, isProcessing update),
so that bridge calls (postMessage / cancelTask / cancelAllTasks), which run
on other threads, can be interleaved with an in-flight task exactly as they
can in the real module.  The mutable cancelled flag lives on the shared task
object; here each task carries an object-identity number `ref` and the set
of flagged objects is the list cancelledRefs.
-/

set_option maxHeartbeats 1000000
set_option linter.unusedVariables false

namespace NativeWorker

/-- A queued unit of work, mirroring the WorkerTask data class (id, message,
timestamp).  `ref` models the object identity of the task record: the same
record is referenced from the registry and from the pending queue, and the
cancelled flag is attached to the object, not to the id. -/
structure WorkerTask where
  ref : Nat
  id : String
  message : String
  timestamp : Nat
deriving DecidableEq

/-- An event payload of the onWorkerMessage event.  sendEventToJS populates
taskId, result, processingTime and timestamp; sendErrorToJS populates
taskId, error and timestamp.  A map key that is not put is `none`. -/
structure Outcome where
  taskId : String
  result : Option String
  processingTime : Option Nat
  timestamp : Nat
  error : Option String
deriving DecidableEq

/-- The success event built by sendEventToJS. -/
def successOutcome (taskId result : String) (pTime now : Nat) : Outcome :=
  ⟨taskId, some result, some pTime, now, none⟩

/-- The error event built by sendErrorToJS: taskId, error and timestamp
only; no processingTime key is put. -/
def errorOutcome (taskId err : String) (now : Nat) : Outcome :=
  ⟨taskId, none, none, now, some err⟩

/-- Registry lookup, activeTasks[id]. -/
def regLookup (l : List (String × WorkerTask)) (id : String) : Option WorkerTask :=
  (l.find? (fun p => p.1 == id)).map (fun p => p.2)

/-- Registry update activeTasks[id] = t: replaces any existing binding for
the same key, as the Kotlin map put / Swift dictionary subscript do. -/
def regInsert (l : List (String × WorkerTask)) (id : String) (t : WorkerTask) :
    List (String × WorkerTask) :=
  (id, t) :: l.filter (fun p => p.1 != id)

/-- Registry removal activeTasks.remove(id). -/
def regErase (l : List (String × WorkerTask)) (id : String) :
    List (String × WorkerTask) :=
  l.filter (fun p => p.1 != id)

/-- The whole mutable state of the Android module: the pending taskQueue,
the activeTasks registry, the set of task objects whose cancelled flag is
set, the isProcessing flag, the task currently inside processMessage (if
any), the list of events delivered so far, and the fresh-object counter. -/
structure EngineState where
  taskQueue : List WorkerTask
  activeTasks : List (String × WorkerTask)
  cancelledRefs : List Nat
  isProcessing : Bool
  inFlight : Option WorkerTask
  delivered : List Outcome
  nextRef : Nat
deriving DecidableEq

/-- The state of a freshly started module: everything empty, not processing. -/
def initState : EngineState := ⟨[], [], [], false, none, [], 0⟩

/-- Model of UUID.randomUUID().toString(): an injective function of the
per-state fresh counter, so that every generated id is new. -/
def uuidGen (n : Nat) : String := "uuid-" ++ String.mk (List.replicate n 'x')

/-- postMessage(message, taskId): build a WorkerTask with the supplied id or
a freshly generated one, put it into activeTasks (overwriting any existing
binding with the same id), offer it to the tail of taskQueue, and resolve
the final id.  It never rejects under normal operation. -/
def postMessage (message : String) (taskId : Option String) (now : Nat)
    (s : EngineState) : String × EngineState :=
  let finalTaskId := taskId.getD (uuidGen s.nextRef)
  let task : WorkerTask := ⟨s.nextRef, finalTaskId, message, now⟩
  (finalTaskId,
   { s with activeTasks := regInsert s.activeTasks finalTaskId task,
            taskQueue := s.taskQueue ++ [task],
            nextRef := s.nextRef + 1 })

/-- cancelTask(taskId): under the activeTasks lock, if the id is bound, set
the cancelled flag of the bound task object, remove the binding and resolve
true; otherwise resolve false.  The pending queue is not touched. -/
def cancelTask (id : String) (s : EngineState) : Bool × EngineState :=
  match regLookup s.activeTasks id with
  | some t => (true, { s with cancelledRefs := t.ref :: s.cancelledRefs,
                              activeTasks := regErase s.activeTasks id })
  | none => (false, s)

/-- cancelAllTasks(): under the activeTasks lock, set the cancelled flag of
every registry entry and count them, clear the registry, then clear the
queue, and resolve the count. -/
def cancelAllTasks (s : EngineState) : Nat × EngineState :=
  (s.activeTasks.length,
   { s with cancelledRefs := s.activeTasks.map (fun p => p.2.ref) ++ s.cancelledRefs,
            activeTasks := [],
            taskQueue := [] })

/-- getQueueSize(): the current length of the pending queue. -/
def getQueueSize (s : EngineState) : Nat := s.taskQueue.length

/-- isProcessing(): the current value of the processing flag. -/
def isProcessingNow (s : EngineState) : Bool := s.isProcessing

/-- First half of processNextTask on the single worker thread, up to the
processMessage call: poll the queue head; when the queue is empty or the
polled task is already cancelled, the else branch sets isProcessing to
false; otherwise isProcessing is set to true and the task becomes the
in-flight one.  The worker thread is single and the next tick is only
posted after the current run returns, so a tick never starts while a task
is in flight; that case is the identity here. -/
def claimStep (s : EngineState) : EngineState :=
  match s.inFlight with
  | some _ => s
  | none =>
    match s.taskQueue with
    | [] => { s with isProcessing := false }
    | t :: rest =>
      if t.ref ∈ s.cancelledRefs then
        { s with taskQueue := rest, isProcessing := false }
      else
        { s with taskQueue := rest, isProcessing := true, inFlight := some t }

/-- Second half of processNextTask, from the return of processMessage.
On success the task is removed from activeTasks and, unless its cancelled
flag was set meanwhile, the success event is emitted; when processMessage
throws, the error event is emitted unless cancelled, and the registry entry
is not touched in this path.  The finally block sets isProcessing to
whether the queue is non-empty.  `proc` is the processing function,
`pTime` the measured duration and `now` the delivery clock reading. -/
def finishStep (proc : String → Except String String) (pTime now : Nat)
    (s : EngineState) : EngineState :=
  match s.inFlight with
  | none => s
  | some t =>
    match proc t.message with
    | Except.ok r =>
      { s with activeTasks := regErase s.activeTasks t.id,
               delivered := if t.ref ∈ s.cancelledRefs then s.delivered
                            else s.delivered ++ [successOutcome t.id r pTime now],
               inFlight := none,
               isProcessing := !s.taskQueue.isEmpty }
    | Except.error e =>
      { s with delivered := if t.ref ∈ s.cancelledRefs then s.delivered
                            else s.delivered ++ [errorOutcome t.id e now],
               inFlight := none,
               isProcessing := !s.taskQueue.isEmpty }

/-- processMessage: reverse the message, convert to uppercase, and append a
timestamp annotation.  The Kotlin uppercase() is modelled character-wise by
Char.toUpper, and `t` models the System.currentTimeMillis() reading. -/
def processMessage (message : String) (t : Nat) : String :=
  "Processed: " ++ String.mk ((message.data.reverse).map Char.toUpper)
    ++ " (at " ++ Nat.repr t ++ ")"

/-- The reference processing function as the engine sees it: a total
function that always returns Except.ok, never an error. -/
def refProcess (t : Nat) (message : String) : Except String String :=
  Except.ok (processMessage message t)

/-- One observable engine event: a bridge call or a worker half-tick. -/
inductive Op where
  | post (message : String) (taskId : Option String) (now : Nat)
  | cancel (id : String)
  | cancelAll
  | claim
  | finish (pTime : Nat) (now : Nat)
deriving DecidableEq

/-- The state transformation of one event. -/
def applyOp (proc : String → Except String String) : Op → EngineState → EngineState
  | Op.post m oid now, s => (postMessage m oid now s).2
  | Op.cancel id, s => (cancelTask id s).2
  | Op.cancelAll, s => (cancelAllTasks s).2
  | Op.claim, s => claimStep s
  | Op.finish pt now, s => finishStep proc pt now s

/-- Run a trace of events from a state. -/
def run (proc : String → Except String String) : List Op → EngineState → EngineState
  | [], s => s
  | op :: rest, s => run proc rest (applyOp proc op s)

/-- State of the iOS module: same data, except that a processing task is
dispatched onto the concurrent global backgroundQueue, so several tasks can
be in flight at once; inFlight is therefore a list. -/
structure IOSState where
  taskQueue : List WorkerTask
  activeTasks : List (String × WorkerTask)
  cancelledRefs : List Nat
  isProcessing : Bool
  inFlight : List WorkerTask
  nextRef : Nat
deriving DecidableEq

/-- A freshly initialised iOS module. -/
def iosInit : IOSState := ⟨[], [], [], false, [], 0⟩

/-- postMessage of the iOS module, same queue and registry updates as on
Android. -/
def iosPostMessage (message : String) (taskId : Option String) (now : Nat)
    (s : IOSState) : String × IOSState :=
  let finalTaskId := taskId.getD (uuidGen s.nextRef)
  let task : WorkerTask := ⟨s.nextRef, finalTaskId, message, now⟩
  (finalTaskId,
   { s with activeTasks := regInsert s.activeTasks finalTaskId task,
            taskQueue := s.taskQueue ++ [task],
            nextRef := s.nextRef + 1 })

/-- processNextTask of the iOS module, as run by each 10 ms timer tick on
the serial queue: pop the queue head; a cancelled head is dropped and its
registry entry removed; otherwise set isProcessing and dispatch
processTask(task) onto the concurrent global backgroundQueue.  The dispatch
returns immediately and nothing gates it on isProcessing, so the task joins
the in-flight invocations without waiting for the earlier ones to finish. -/
def iosClaimStep (s : IOSState) : IOSState :=
  match s.taskQueue with
  | [] => { s with isProcessing := false }
  | t :: rest =>
    if t.ref ∈ s.cancelledRefs then
      { s with taskQueue := rest, activeTasks := regErase s.activeTasks t.id }
    else
      { s with taskQueue := rest, isProcessing := true,
               inFlight := s.inFlight ++ [t] }

/-- Distinct counters give distinct generated ids. -/
lemma uuidGen_inj {a b : Nat} (h : uuidGen a = uuidGen b) : a = b := by
  have hd : (uuidGen a).data.length = (uuidGen b).data.length := by rw [h]
  simpa [uuidGen, String.data_append] using hd

/-- C9: for every message payload and clock reading, the reference
Processing Function returns the string "Processed: " followed by the
reversal of the payload converted to uppercase, followed by the timestamp
annotation " (at <t>)"; and, as the engine sees it, it runs to completion
without failing: refProcess always returns Except.ok. -/
theorem c9_processMessage_spec (message : String) (t : Nat) :
    processMessage message t =
      "Processed: " ++ String.mk ((message.data.map Char.toUpper).reverse)
        ++ " (at " ++ Nat.repr t ++ ")"
    ∧ refProcess t message = Except.ok (processMessage message t) := by
  refine ⟨?_, rfl⟩
  unfold processMessage
  rw [List.map_reverse]

/-- C7: postMessage never fails: it constructs a task whose cancelled flag
is unset, inserts it into the registry — a supplied id that collides with a
still-live task overwrites the existing binding, since regInsert replaces —
appends it to the tail of the pending queue so the queue length grows by
exactly one, and resolves the supplied id, or the freshly generated one
when omitted; the generator is injective and the counter advances, so
generated ids never repeat. -/
theorem c7_postMessage_spec (m : String) (oid : Option String) (now : Nat)
    (s : EngineState) (hflags : ∀ r ∈ s.cancelledRefs, r < s.nextRef) :
    (postMessage m oid now s).1 = oid.getD (uuidGen s.nextRef)
    ∧ (postMessage m oid now s).2.taskQueue
        = s.taskQueue ++ [⟨s.nextRef, oid.getD (uuidGen s.nextRef), m, now⟩]
    ∧ getQueueSize (postMessage m oid now s).2 = getQueueSize s + 1
    ∧ regLookup (postMessage m oid now s).2.activeTasks (postMessage m oid now s).1
        = some ⟨s.nextRef, oid.getD (uuidGen s.nextRef), m, now⟩
    ∧ s.nextRef ∉ (postMessage m oid now s).2.cancelledRefs
    ∧ (postMessage m oid now s).2.nextRef = s.nextRef + 1
    ∧ (∀ a b : Nat, uuidGen a = uuidGen b → a = b) := by
  refine ⟨rfl, rfl, ?_, ?_, ?_, rfl, fun a b h => uuidGen_inj h⟩
  · simp [getQueueSize, postMessage]
  · simp [postMessage, regLookup, regInsert]
  · intro hmem
    have : s.nextRef ∈ s.cancelledRefs := hmem
    exact absurd (hflags _ this) (lt_irrefl _)

/-- A state with two queued tasks, the first of which has been cancelled:
post "A" under id "a", post "B" under id "b", then cancelTask "a". -/
def c10State : EngineState :=
  (cancelTask "a"
    (postMessage "B" (some "b") 0 (postMessage "A" (some "a") 0 initState).2).2).2

/-- C10: when the worker dequeues a task whose cancelled flag is already
set, the else branch of processNextTask sets isProcessing to false
unconditionally — it does not recompute busy or idle from the queue — so
isProcessing can report false even while the pending queue is non-empty. -/
theorem c10_cancelled_head_clears_processing (s : EngineState)
    (t : WorkerTask) (rest : List WorkerTask)
    (hq : s.taskQueue = t :: rest) (hfl : t.ref ∈ s.cancelledRefs)
    (hin : s.inFlight = none) :
    isProcessingNow (claimStep s) = false ∧ (claimStep s).taskQueue = rest := by
  unfold claimStep
  rw [hin, hq]
  simp [hfl, isProcessingNow]

/-- Witness for C10 at a concrete reachable state: after enqueuing "A" and
"B" and cancelling "A", one tick leaves isProcessing false while task "B"
is still queued. -/
theorem c10_cancelled_head_clears_processing_witness :
    (c10State.taskQueue
        = (⟨0, "a", "A", 0⟩ : WorkerTask) :: [(⟨1, "b", "B", 0⟩ : WorkerTask)]
      ∧ (⟨0, "a", "A", 0⟩ : WorkerTask).ref ∈ c10State.cancelledRefs
      ∧ c10State.inFlight = none)
    ∧ (isProcessingNow (claimStep c10State) = false
      ∧ (claimStep c10State).taskQueue = [(⟨1, "b", "B", 0⟩ : WorkerTask)])
    ∧ (claimStep c10State).taskQueue ≠ [] :=
  ⟨⟨by decide, by decide, by decide⟩,
   c10_cancelled_head_clears_processing c10State ⟨0, "a", "A", 0⟩
     [⟨1, "b", "B", 0⟩] (by decide) (by decide) (by decide),
   by decide⟩

/-- C8: cancelTask never modifies the pending queue: the queue after the
call is the same list — same tasks, same length, same order, no splicing —
and when the id is bound in the registry, the bound task object's cancelled
flag is set, so the instance still sits in the queue flagged cancelled. -/
theorem c8_cancelTask_queue_frame (id : String) (s : EngineState) :
    (cancelTask id s).2.taskQueue = s.taskQueue
    ∧ getQueueSize (cancelTask id s).2 = getQueueSize s
    ∧ (∀ t, regLookup s.activeTasks id = some t →
        t.ref ∈ (cancelTask id s).2.cancelledRefs) := by
  unfold cancelTask
  cases h : regLookup s.activeTasks id with
  | none => exact ⟨rfl, rfl, fun t ht => by cases ht⟩
  | some t =>
    refine ⟨rfl, rfl, fun u hu => ?_⟩
    cases hu
    exact List.mem_cons_self _ _

/-- Witness for C8 at a concrete state: cancelling the queued task "a"
leaves the queue untouched and flags the task object. -/
theorem c8_cancelTask_queue_frame_witness :
    (regLookup (postMessage "A" (some "a") 0 initState).2.activeTasks "a"
        = some ⟨0, "a", "A", 0⟩)
    ∧ ((cancelTask "a" (postMessage "A" (some "a") 0 initState).2).2.taskQueue
        = (postMessage "A" (some "a") 0 initState).2.taskQueue
      ∧ getQueueSize (cancelTask "a" (postMessage "A" (some "a") 0 initState).2).2
        = getQueueSize (postMessage "A" (some "a") 0 initState).2
      ∧ (∀ t, regLookup (postMessage "A" (some "a") 0 initState).2.activeTasks "a"
            = some t →
          t.ref ∈ (cancelTask "a" (postMessage "A" (some "a") 0 initState).2).2.cancelledRefs)) :=
  ⟨by decide, c8_cancelTask_queue_frame "a" (postMessage "A" (some "a") 0 initState).2⟩

/-- Witness for C7 at the initial state with an omitted id. -/
theorem c7_postMessage_spec_witness :
    (∀ r ∈ initState.cancelledRefs, r < initState.nextRef)
    ∧ ((postMessage "Hello" none 0 initState).1
        = (none : Option String).getD (uuidGen initState.nextRef)
      ∧ (postMessage "Hello" none 0 initState).2.taskQueue
          = initState.taskQueue
            ++ [⟨initState.nextRef,
                 (none : Option String).getD (uuidGen initState.nextRef), "Hello", 0⟩]
      ∧ getQueueSize (postMessage "Hello" none 0 initState).2 = getQueueSize initState + 1
      ∧ regLookup (postMessage "Hello" none 0 initState).2.activeTasks
            (postMessage "Hello" none 0 initState).1
          = some ⟨initState.nextRef,
                  (none : Option String).getD (uuidGen initState.nextRef), "Hello", 0⟩
      ∧ initState.nextRef ∉ (postMessage "Hello" none 0 initState).2.cancelledRefs
      ∧ (postMessage "Hello" none 0 initState).2.nextRef = initState.nextRef + 1
      ∧ (∀ a b : Nat, uuidGen a = uuidGen b → a = b)) :=
  ⟨by decide, c7_postMessage_spec "Hello" none 0 initState (by decide)⟩

/-- A find?-hit in the registry is an entry of the registry, so its task
object is among the values whose cancelled flag cancelAllTasks sets. -/
lemma regLookup_ref_mem {l : List (String × WorkerTask)} {id : String}
    {t : WorkerTask} (h : regLookup l id = some t) :
    t.ref ∈ l.map (fun p => p.2.ref) := by
  unfold regLookup at h
  cases hf : l.find? (fun p => p.1 == id) with
  | none => rw [hf] at h; cases h
  | some p =>
    rw [hf] at h
    simp only [Option.map_some'] at h
    cases h
    exact List.mem_map_of_mem _ (List.mem_of_find?_eq_some hf)

/-- The state reached by enqueuing "A" under id "a" and letting the worker
claim it: the queue is empty, the task is mid-flight, and its registry
entry is still present (it is only removed after processing finishes). -/
def c1Mid : EngineState := claimStep (postMessage "A" (some "a") 0 initState).2

/-- Counterexample to C1: at c1Mid zero tasks are queued-but-not-yet-claimed
(the queue is empty and one task is claimed and mid-flight), yet
cancelAllTasks returns 1 — the claimed task is still in the registry, so it
is counted — and its outcome is then suppressed, not delivered. -/
theorem c1_counterexample :
    getQueueSize c1Mid = 0
    ∧ c1Mid.inFlight = some ⟨0, "a", "A", 0⟩
    ∧ (cancelAllTasks c1Mid).1 = 1
    ∧ (finishStep (refProcess 0) 1 2 (cancelAllTasks c1Mid).2).delivered = [] := by
  decide

/-- C1 (amended): cancelAllTasks returns the number of registry entries at
the instant of the call, and the queue length is 0 immediately after; but a
task already claimed by the worker is still in the registry until its
processing finishes, so it is counted, and its outcome is suppressed rather
than delivered. -/
theorem c1_cancelAllTasks_amended (s : EngineState) (t : WorkerTask)
    (hin : s.inFlight = some t) (hreg : regLookup s.activeTasks t.id = some t) :
    (cancelAllTasks s).1 = s.activeTasks.length
    ∧ (cancelAllTasks s).2.taskQueue = []
    ∧ getQueueSize (cancelAllTasks s).2 = 0
    ∧ ∀ proc pTime now,
        (finishStep proc pTime now (cancelAllTasks s).2).delivered = s.delivered := by
  refine ⟨rfl, rfl, rfl, fun proc pTime now => ?_⟩
  have h1 : (cancelAllTasks s).2.inFlight = some t := hin
  have hflag : t.ref ∈ (cancelAllTasks s).2.cancelledRefs :=
    List.mem_append_left _ (regLookup_ref_mem hreg)
  unfold finishStep
  rw [h1]
  dsimp only
  cases hp : proc t.message with
  | ok r =>
    dsimp only
    rw [if_pos hflag]
    rfl
  | error e =>
    dsimp only
    rw [if_pos hflag]
    rfl

/-- Witness for the amended C1 at the concrete state c1Mid. -/
theorem c1_cancelAllTasks_amended_witness :
    (c1Mid.inFlight = some ⟨0, "a", "A", 0⟩
      ∧ regLookup c1Mid.activeTasks (WorkerTask.id ⟨0, "a", "A", 0⟩)
          = some ⟨0, "a", "A", 0⟩)
    ∧ ((cancelAllTasks c1Mid).1 = c1Mid.activeTasks.length
      ∧ (cancelAllTasks c1Mid).2.taskQueue = []
      ∧ getQueueSize (cancelAllTasks c1Mid).2 = 0
      ∧ ∀ proc pTime now,
          (finishStep proc pTime now (cancelAllTasks c1Mid).2).delivered
            = c1Mid.delivered) :=
  ⟨⟨by decide, by decide⟩,
   c1_cancelAllTasks_amended c1Mid ⟨0, "a", "A", 0⟩ (by decide) (by decide)⟩

/-- A processing function that always raises, with message "boom". -/
def failProc : String → Except String String := fun _ => Except.error "boom"

/-- A processing function that always succeeds, prefixing "R-". -/
def okProc : String → Except String String := fun m => Except.ok ("R-" ++ m)

/-- The state after enqueuing "m" under id "t1", claiming it, and finishing
with a processing function that raises "boom". -/
def c3Failed : EngineState :=
  finishStep failProc 5 10 (claimStep (postMessage "m" (some "t1") 0 initState).2)

/-- C3 at its failing input: the uncancelled task "t1" whose processing
function raises gets an error outcome delivered (error set instead of
result), and the loop continues (nothing is in flight, isProcessing is
recomputed); but the registry entry of "t1" is NOT removed — the removal
sits in the try block after processMessage, which the exception skips — so
a later cancelTask on the already-failed task still returns true. -/
theorem c3_error_path_registry_leak :
    c3Failed.delivered = [errorOutcome "t1" "boom" 10]
    ∧ (c3Failed.delivered.map fun o => o.error) = [some "boom"]
    ∧ (c3Failed.delivered.map fun o => o.result) = [none]
    ∧ regLookup c3Failed.activeTasks "t1" = some ⟨0, "t1", "m", 0⟩
    ∧ (cancelTask "t1" c3Failed).1 = true
    ∧ c3Failed.inFlight = none
    ∧ isProcessingNow c3Failed = false := by
  decide

/-- The state after enqueuing "p" under id "s1", claiming and finishing it
successfully. -/
def c4Success : EngineState :=
  finishStep okProc 7 20 (claimStep (postMessage "p" (some "s1") 0 initState).2)

/-- The state after enqueuing "q" under id "f1", claiming it, and finishing
with the raising processing function. -/
def c4Failure : EngineState :=
  finishStep failProc 7 21 (claimStep (postMessage "q" (some "f1") 0 initState).2)

/-- C4 at its failing input: a success outcome carries taskId, result,
processingTime and timestamp with exactly the result set; but the error
outcome built by sendErrorToJS carries only taskId, error and timestamp —
its processingTime is absent, contradicting the claim that every delivered
outcome contains a processingTime in the failure case as well. -/
theorem c4_error_outcome_missing_processingTime :
    c4Success.delivered = [successOutcome "s1" "R-p" 7 20]
    ∧ (c4Success.delivered.map fun o => o.processingTime) = [some 7]
    ∧ (c4Success.delivered.map fun o => (o.result.isSome, o.error.isSome))
        = [(true, false)]
    ∧ c4Failure.delivered = [errorOutcome "f1" "boom" 21]
    ∧ (c4Failure.delivered.map fun o => (o.result.isSome, o.error.isSome))
        = [(false, true)]
    ∧ (c4Failure.delivered.map fun o => o.processingTime) = [none] := by
  decide

/-- The iOS state after enqueuing "A" and "B" and two timer ticks, neither
task having completed: both dispatches onto the concurrent backgroundQueue
have happened. -/
def c2Overlap : IOSState :=
  iosClaimStep (iosClaimStep
    (iosPostMessage "B" (some "b") 1 (iosPostMessage "A" (some "a") 0 iosInit).2).2)

/-- C2 at its failing input: on the iOS engine, after two enqueues and two
ticks of the 10 ms timer — well within the 100 ms sleep of the first
processMessage — two Processing Function invocations are simultaneously in
flight on the concurrent global queue: the dispatch in processNextTask is
not gated on isProcessing and the target queue is not serial, so the two
executions overlap. -/
theorem c2_ios_two_invocations_in_flight :
    c2Overlap.inFlight = [⟨0, "a", "A", 0⟩, ⟨1, "b", "B", 1⟩]
    ∧ c2Overlap.inFlight.length = 2
    ∧ c2Overlap.taskQueue = [] := by
  decide

/-- The ids of all tasks currently anywhere in the pipeline, in positional
order: outcomes delivered so far, then the task being processed, then the
pending queue from head to tail. -/
def lineup (s : EngineState) : List String :=
  s.delivered.map (fun o => o.taskId)
    ++ (match s.inFlight with | some t => [t.id] | none => [])
    ++ s.taskQueue.map (fun t => t.id)

/-- Events that are not cancellations: enqueues and worker half-ticks. -/
def isDrainOp : Op → Bool
  | Op.post _ _ _ => true
  | Op.claim => true
  | Op.finish _ _ => true
  | _ => false

/-- The id an event assigns when it is an enqueue, none otherwise. -/
def opAssigned (s : EngineState) : Op → List String
  | Op.post _ oid _ => [oid.getD (uuidGen s.nextRef)]
  | _ => []

/-- The ids assigned to the enqueues of a trace, in arrival order. -/
def assignedIds (proc : String → Except String String) :
    List Op → EngineState → List String
  | [], _ => []
  | op :: rest, s => opAssigned s op ++ assignedIds proc rest (applyOp proc op s)

/-- One cancellation-free event preserves the pipeline order: an enqueue
appends its id at the end, and a worker half-tick only moves the boundary
between delivered, in-flight and queued; no task ever has cancelled set, so
nothing is dropped at dequeue time or suppressed at delivery time. -/
lemma lineup_applyOp (proc : String → Except String String) (op : Op)
    (s : EngineState) (hop : isDrainOp op = true) (hfl : s.cancelledRefs = []) :
    lineup (applyOp proc op s) = lineup s ++ opAssigned s op
    ∧ (applyOp proc op s).cancelledRefs = [] := by
  cases op with
  | post m oid now =>
    exact ⟨by simp [applyOp, postMessage, lineup, opAssigned, List.append_assoc], hfl⟩
  | cancel id => cases hop
  | cancelAll => cases hop
  | claim =>
    cases hin : s.inFlight with
    | some t => simp [applyOp, claimStep, opAssigned, hin, hfl]
    | none =>
      cases hq : s.taskQueue with
      | nil => simp [applyOp, claimStep, lineup, opAssigned, hin, hq, hfl]
      | cons t rest => simp [applyOp, claimStep, lineup, opAssigned, hin, hq, hfl]
  | finish pt now =>
    cases hin : s.inFlight with
    | none => simp [applyOp, finishStep, opAssigned, hin, hfl]
    | some t =>
      cases hp : proc t.message with
      | ok r =>
        simp [applyOp, finishStep, lineup, opAssigned, hin, hp, hfl, successOutcome]
      | error e =>
        simp [applyOp, finishStep, lineup, opAssigned, hin, hp, hfl, errorOutcome]

/-- Over a whole cancellation-free trace, the pipeline order equals the old
order followed by the enqueue order of the trace. -/
lemma lineup_run (proc : String → Except String String) :
    ∀ (ops : List Op) (s : EngineState),
      (∀ op ∈ ops, isDrainOp op = true) → s.cancelledRefs = [] →
      lineup (run proc ops s) = lineup s ++ assignedIds proc ops s
      ∧ (run proc ops s).cancelledRefs = [] := by
  intro ops
  induction ops with
  | nil => intro s _ hfl; exact ⟨by simp [run, assignedIds], hfl⟩
  | cons op rest ih =>
    intro s hops hfl
    have hop := hops op (List.mem_cons_self _ _)
    have hrest : ∀ o ∈ rest, isDrainOp o = true :=
      fun o ho => hops o (List.mem_cons_of_mem _ ho)
    obtain ⟨h1, h2⟩ := lineup_applyOp proc op s hop hfl
    obtain ⟨h3, h4⟩ := ih (applyOp proc op s) hrest h2
    refine ⟨?_, h4⟩
    show lineup (run proc rest (applyOp proc op s)) = _
    rw [h3, h1]
    simp [assignedIds, List.append_assoc]

/-- C6: for every trace of enqueues and worker half-ticks in which no task
is cancelled, outcomes are delivered in exactly the enqueue order: at every
point, the delivered outcome ids, followed by the in-flight task and the
pending queue (which the worker pops strictly at its head), spell out the
ids in arrival order, with no reordering. -/
theorem c6_fifo_order (proc : String → Except String String) (ops : List Op)
    (hops : ∀ op ∈ ops, isDrainOp op = true)
    (hdistinct : (assignedIds proc ops initState).Nodup) :
    lineup (run proc ops initState) = assignedIds proc ops initState := by
  have h := (lineup_run proc ops initState hops rfl).1
  simpa [lineup, initState] using h

/-- The C6 witness trace: enqueue "a" and "b", then two full worker ticks. -/
def c6Ops : List Op :=
  [Op.post "A" (some "a") 0, Op.post "B" (some "b") 1, Op.claim,
   Op.finish 1 2, Op.claim, Op.finish 1 3]

/-- Witness for C6 on the concrete trace c6Ops with distinct ids. -/
theorem c6_fifo_order_witness :
    ((∀ op ∈ c6Ops, isDrainOp op = true)
      ∧ (assignedIds okProc c6Ops initState).Nodup)
    ∧ lineup (run okProc c6Ops initState) = assignedIds okProc c6Ops initState :=
  ⟨⟨by decide, by decide⟩, c6_fifo_order okProc c6Ops (by decide) (by decide)⟩

/-- An event can introduce a task with id x only when it is an enqueue that
either supplies x or lets the engine generate the id. -/
def introducesId (x : String) : Op → Bool
  | Op.post _ oid _ => oid == some x || oid == none
  | _ => false

/-- No live or future trace of a task with id x: the registry does not bind
x, every queued or in-flight task with id x is flagged cancelled, and no
delivered outcome carries taskId x. -/
def NoTraceOf (x : String) (s : EngineState) : Prop :=
  regLookup s.activeTasks x = none
  ∧ (∀ t ∈ s.taskQueue, t.id = x → t.ref ∈ s.cancelledRefs)
  ∧ (∀ t, s.inFlight = some t → t.id = x → t.ref ∈ s.cancelledRefs)
  ∧ (∀ o ∈ s.delivered, o.taskId ≠ x)

/-- A registry lookup misses exactly when no entry has the key. -/
lemma regLookup_eq_none_iff {l : List (String × WorkerTask)} {x : String} :
    regLookup l x = none ↔ ∀ p ∈ l, p.1 ≠ x := by
  unfold regLookup
  simp [List.find?_eq_none]

/-- Filtering a registry preserves a missing key. -/
lemma regLookup_filter_none {l : List (String × WorkerTask)} {x : String}
    (h : regLookup l x = none) (q : String × WorkerTask → Bool) :
    regLookup (l.filter q) x = none := by
  rw [regLookup_eq_none_iff] at h ⊢
  intro p hp
  exact h p (List.mem_of_mem_filter hp)

/-- Erasing a key from the registry makes its lookup miss. -/
lemma regLookup_regErase_self (l : List (String × WorkerTask)) (x : String) :
    regLookup (regErase l x) x = none := by
  rw [regLookup_eq_none_iff]
  intro p hp
  have hpred := List.of_mem_filter hp
  simpa using hpred

/-- Inserting under a different key preserves a missing key. -/
lemma regLookup_insert_ne {l : List (String × WorkerTask)} {x i : String}
    {t : WorkerTask} (hne : i ≠ x) (h : regLookup l x = none) :
    regLookup (regInsert l i t) x = none := by
  rw [regLookup_eq_none_iff] at h ⊢
  intro p hp
  rcases List.mem_cons.mp hp with h1 | h2
  · rw [h1]; exact hne
  · exact h p (List.mem_of_mem_filter h2)

/-- One event that does not introduce id x preserves NoTraceOf x: enqueues
of other ids leave x untouched, cancellations only grow the flagged set,
the worker drops a flagged head silently, and delivery of an unflagged task
(which by the invariant cannot have id x) emits an outcome with a different
taskId. -/
lemma noTraceOf_applyOp (proc : String → Except String String) (x : String)
    (op : Op) (s : EngineState) (hop : introducesId x op = false)
    (h : NoTraceOf x s) : NoTraceOf x (applyOp proc op s) := by
  obtain ⟨hreg, hq, hin, hdel⟩ := h
  cases op with
  | post m oid now =>
    have hnn : oid ≠ none := by
      intro hc; subst hc; simp [introducesId] at hop
    obtain ⟨i, hi⟩ := Option.ne_none_iff_exists'.mp hnn
    subst hi
    have hix : i ≠ x := by
      intro hc; subst hc; simp [introducesId] at hop
    refine ⟨?_, ?_, ?_, ?_⟩
    · show regLookup (regInsert s.activeTasks ((some i).getD (uuidGen s.nextRef))
        ⟨s.nextRef, (some i).getD (uuidGen s.nextRef), m, now⟩) x = none
      simpa using regLookup_insert_ne hix hreg
    · intro t ht htx
      rcases List.mem_append.mp ht with h1 | h1
      · exact hq t h1 htx
      · have : t = ⟨s.nextRef, (some i).getD (uuidGen s.nextRef), m, now⟩ := by
          simpa using h1
        rw [this] at htx
        exact absurd htx (by simpa using hix)
    · intro t ht htx
      exact hin t ht htx
    · intro o ho
      exact hdel o ho
  | cancel id =>
    show NoTraceOf x (cancelTask id s).2
    unfold cancelTask
    cases hc : regLookup s.activeTasks id with
    | none => exact ⟨hreg, hq, hin, hdel⟩
    | some u =>
      refine ⟨regLookup_filter_none hreg _, ?_, ?_, hdel⟩
      · intro t ht htx
        exact List.mem_cons_of_mem _ (hq t ht htx)
      · intro t ht htx
        exact List.mem_cons_of_mem _ (hin t ht htx)
  | cancelAll =>
    refine ⟨rfl, ?_, ?_, hdel⟩
    · intro t ht htx
      cases ht
    · intro t ht htx
      exact List.mem_append_right _ (hin t ht htx)
  | claim =>
    show NoTraceOf x (claimStep s)
    unfold claimStep
    cases hif : s.inFlight with
    | some u =>
      dsimp only
      exact ⟨hreg, hq, fun t ht htx => hin t ht htx, hdel⟩
    | none =>
      cases hqe : s.taskQueue with
      | nil =>
        dsimp only
        exact ⟨hreg, fun t ht htx => absurd ht (List.not_mem_nil t),
               fun t ht htx => Option.noConfusion ht, hdel⟩
      | cons u rest =>
        dsimp only
        by_cases hu : u.ref ∈ s.cancelledRefs
        · rw [if_pos hu]
          refine ⟨hreg, ?_, fun t ht htx => Option.noConfusion ht, hdel⟩
          intro t ht htx
          exact hq t (hqe ▸ List.mem_cons_of_mem _ ht) htx
        · rw [if_neg hu]
          refine ⟨hreg, ?_, ?_, hdel⟩
          · intro t ht htx
            exact hq t (hqe ▸ List.mem_cons_of_mem _ ht) htx
          · intro t ht htx
            have htu : u = t := by
              have := Option.some.inj ht
              exact this
            rw [← htu] at htx
            exact absurd (hq u (hqe ▸ List.mem_cons_self _ _) htx) hu
  | finish pt now =>
    show NoTraceOf x (finishStep proc pt now s)
    unfold finishStep
    cases hif : s.inFlight with
    | none =>
      dsimp only
      exact ⟨hreg, hq, fun t ht htx => hin t ht htx, hdel⟩
    | some u =>
      have hux : u.id = x → u.ref ∈ s.cancelledRefs := hin u hif
      dsimp only
      cases hp : proc u.message with
      | ok r =>
        dsimp only
        refine ⟨regLookup_filter_none hreg _, hq,
                fun t ht htx => Option.noConfusion ht, ?_⟩
        by_cases hfl : u.ref ∈ s.cancelledRefs
        · rw [if_pos hfl]
          exact hdel
        · rw [if_neg hfl]
          intro o ho
          rcases List.mem_append.mp ho with h1 | h1
          · exact hdel o h1
          · have ho1 : o = successOutcome u.id r pt now := by simpa using h1
            rw [ho1]
            intro hc
            exact hfl (hux hc)
      | error e =>
        dsimp only
        refine ⟨hreg, hq, fun t ht htx => Option.noConfusion ht, ?_⟩
        by_cases hfl : u.ref ∈ s.cancelledRefs
        · rw [if_pos hfl]
          exact hdel
        · rw [if_neg hfl]
          intro o ho
          rcases List.mem_append.mp ho with h1 | h1
          · exact hdel o h1
          · have ho1 : o = errorOutcome u.id e now := by simpa using h1
            rw [ho1]
            intro hc
            exact hfl (hux hc)

/-- NoTraceOf x is preserved by every trace that never introduces id x. -/
lemma noTraceOf_run (proc : String → Except String String) (x : String) :
    ∀ (ops : List Op) (s : EngineState),
    (∀ op ∈ ops, introducesId x op = false) → NoTraceOf x s →
    NoTraceOf x (run proc ops s) := by
  intro ops
  induction ops with
  | nil => intro s _ h; exact h
  | cons op rest ih =>
    intro s hops h
    exact ih (applyOp proc op s)
      (fun o ho => hops o (List.mem_cons_of_mem _ ho))
      (noTraceOf_applyOp proc x op s (hops op (List.mem_cons_self _ _)) h)

/-- Cancelling a still-queued task establishes NoTraceOf for its id: the
binding is erased, the task object (the unique holder of that id, also in
the queue) is flagged, nothing with that id is in flight, and nothing with
that id was delivered before. -/
lemma noTraceOf_after_cancel (s : EngineState) (x : String) (t : WorkerTask)
    (hreg : regLookup s.activeTasks x = some t)
    (hq : ∀ u ∈ s.taskQueue, u.id = x → u.ref = t.ref)
    (hin : ∀ u, s.inFlight = some u → u.id ≠ x)
    (hdel : ∀ o ∈ s.delivered, o.taskId ≠ x) :
    NoTraceOf x (cancelTask x s).2 := by
  unfold cancelTask
  rw [hreg]
  dsimp only
  refine ⟨regLookup_regErase_self s.activeTasks x, ?_, ?_, hdel⟩
  · intro u hu hux
    rw [hq u hu hux]
    exact List.mem_cons_self _ _
  · intro u hu hux
    exact absurd hux (hin u hu)

/-- A cancelTask hit resolves true. -/
lemma cancelTask_fst_of_some {s : EngineState} {x : String} {t : WorkerTask}
    (h : regLookup s.activeTasks x = some t) : (cancelTask x s).1 = true := by
  unfold cancelTask
  rw [h]

/-- A cancelTask hit flags the bound task object. -/
lemma cancelTask_refs_of_some {s : EngineState} {x : String} {t : WorkerTask}
    (h : regLookup s.activeTasks x = some t) :
    (cancelTask x s).2.cancelledRefs = t.ref :: s.cancelledRefs := by
  unfold cancelTask
  rw [h]

/-- A cancelTask miss resolves false, with no error. -/
lemma cancelTask_fst_of_none {s : EngineState} {x : String}
    (h : regLookup s.activeTasks x = none) : (cancelTask x s).1 = false := by
  unfold cancelTask
  rw [h]

/-- C5: cancelTask resolves true exactly when the id is bound in the
registry at call time, in which case it flags the task object and removes
the binding, and resolves false without error when the id is absent; for a
task cancelled while still queued (its id unique to it and nothing of that
id in flight or already delivered), after any further trace that does not
enqueue that id again, every subsequent cancelTask on the id resolves
false, and no outcome for that id is ever delivered. -/
theorem c5_cancelTask_spec (proc : String → Except String String)
    (s : EngineState) (x : String) (t : WorkerTask) (ops : List Op)
    (hreg : regLookup s.activeTasks x = some t)
    (hq : ∀ u ∈ s.taskQueue, u.id = x → u.ref = t.ref)
    (hin : ∀ u, s.inFlight = some u → u.id ≠ x)
    (hdel : ∀ o ∈ s.delivered, o.taskId ≠ x)
    (hops : ∀ op ∈ ops, introducesId x op = false) :
    (∀ s' : EngineState,
        (cancelTask x s').1 = true ↔ (regLookup s'.activeTasks x).isSome = true)
    ∧ (cancelTask x s).1 = true
    ∧ regLookup (cancelTask x s).2.activeTasks x = none
    ∧ t.ref ∈ (cancelTask x s).2.cancelledRefs
    ∧ (cancelTask x (run proc ops (cancelTask x s).2)).1 = false
    ∧ (∀ o ∈ (run proc ops (cancelTask x s).2).delivered, o.taskId ≠ x) := by
  have hafter := noTraceOf_after_cancel s x t hreg hq hin hdel
  have hfinal := noTraceOf_run proc x ops (cancelTask x s).2 hops hafter
  refine ⟨?_, cancelTask_fst_of_some hreg, hafter.1, ?_,
         cancelTask_fst_of_none hfinal.1, hfinal.2.2.2⟩
  · intro s'
    cases hc : regLookup s'.activeTasks x with
    | none => simp [cancelTask_fst_of_none hc, hc]
    | some u => simp [cancelTask_fst_of_some hc, hc]
  · rw [cancelTask_refs_of_some hreg]
    exact List.mem_cons_self _ _

/-- The C5 witness start state: one task "m" enqueued under id "x1". -/
def c5Start : EngineState := (postMessage "m" (some "x1") 0 initState).2

/-- The C5 witness trace after the cancellation: two worker ticks (the
first drops the flagged task silently), a repeated cancel, a cancel-all,
an enqueue of a different id and two more half-ticks. -/
def c5Ops : List Op :=
  [Op.claim, Op.finish 1 2, Op.cancel "x1", Op.cancelAll,
   Op.post "other" (some "y") 3, Op.claim, Op.finish 1 4]

/-- Witness for C5 on the concrete scenario. -/
theorem c5_cancelTask_spec_witness :
    (∀ s' : EngineState,
        (cancelTask "x1" s').1 = true ↔ (regLookup s'.activeTasks "x1").isSome = true)
    ∧ (cancelTask "x1" c5Start).1 = true
    ∧ regLookup (cancelTask "x1" c5Start).2.activeTasks "x1" = none
    ∧ (WorkerTask.ref ⟨0, "x1", "m", 0⟩) ∈ (cancelTask "x1" c5Start).2.cancelledRefs
    ∧ (cancelTask "x1" (run okProc c5Ops (cancelTask "x1" c5Start).2)).1 = false
    ∧ (∀ o ∈ (run okProc c5Ops (cancelTask "x1" c5Start).2).delivered,
        o.taskId ≠ "x1") :=
  c5_cancelTask_spec okProc c5Start "x1" ⟨0, "x1", "m", 0⟩ c5Ops
    (by decide) (by decide) (fun u hu => by cases hu) (by decide) (by decide)

end NativeWorker
